import Mathlib

/-!
Verification of the dentist IVR webhook controller (`src/api/voice_v2.js`,
with the near-identical `src/api/voice.js` variants), against its
natural-language specification.

The embedding below translates the JavaScript source into Lean:
* JS `x || d` on strings (empty string is falsy) becomes `jsOr`;
* `String.prototype.includes` becomes `strContains`;
* `String.prototype.toLowerCase` becomes `jsToLower` (ASCII case folding;
  identity on Hebrew letters, as in JS);
* the three-provider transcription fallthrough becomes `chainRun` (general
  ordered list form) and `v2ChainTrace` (the unrolled three-provider form
  of the source, instrumented with an invocation trace);
* provider-internal `try/catch` boundaries become `catchToNull`
  (Hugging Face, Gladia: return `null` on error) and `catchToEmpty`
  (OpenAI Whisper wrapper: returns the empty string on error);
* the bounded download-retry loop becomes `dlGo` over the fixed delay
  schedule `twDelays = [300, 500, 1000, 2000]`;
* the Hugging Face 503 retry recursion becomes `hfRun`, driven by the
  stream of HTTP responses the endpoint produces;
* JS `Date` values (UTC fields, server clock assumed UTC) become `JDate`,
  with `setFullYearNorm` reproducing ECMAScript day-overflow
  normalization (Feb 29 in a non-leap year rolls to Mar 1) and
  `yearCorrect` the year-forcing postcondition of the extractor;
* the chrono fallback of the extractor becomes `extractFallback`, with the
  external `chrono.parseDate` call abstracted as a function of its
  `forwardDate` flag and instrumented with an invocation trace;
* the whole webhook handler becomes `handler` over a `World` of external
  behaviours (download responses, provider results, GPT outcome, chrono,
  calendar insert outcome, locale rendering), returning the HTTP-level
  response together with the list of external effects performed.
-/

namespace Voice

/-! ### JavaScript string primitives -/

/-- JS `opt || dflt` for an optional string field: `undefined`/missing and
the empty string are both falsy and yield the default. -/
def jsOr (o : Option String) (dflt : String) : String :=
  match o with
  | none => dflt
  | some s => if s = "" then dflt else s

/-- JS truthiness of an optional string value (used for `recordingUrl`). -/
def truthyOpt : Option String → Bool
  | none => false
  | some s => s != ""

/-- JS falsiness of a nullable string (a transcription result): `null`
and the empty string are falsy. -/
def jsFalsy : Option String → Bool
  | none => true
  | some s => s == ""

/-- `sub` occurs at the start of `l` (character-list level). -/
def chStarts : List Char → List Char → Bool
  | [], _ => true
  | _ :: _, [] => false
  | a :: as, b :: bs => a == b && chStarts as bs

/-- `sub` occurs somewhere inside `l` (character-list level). -/
def chSomewhere (sub : List Char) : List Char → Bool
  | [] => chStarts sub []
  | c :: rest => chStarts sub (c :: rest) || chSomewhere sub rest

/-- JS `s.includes(sub)`. -/
def strContains (s sub : String) : Bool :=
  chSomewhere sub.toList s.toList

/-- JS `s.toLowerCase()` restricted to the alphabets this program uses:
ASCII letters are folded, all other characters (including Hebrew) are
unchanged, matching `Char.toLower`. -/
def jsToLower (s : String) : String :=
  String.mk (s.toList.map Char.toLower)

/-! ### Language selection (`step=lang` branch, voice_v2.js lines 529-537)

```js
let key = "1"; // EN by default
if (digits === "2" || speech.includes("fran")) key = "2";
else if (digits === "3" || speech.includes("ivrit") || speech.includes("עברית")) key = "3";
```
where `speech = (req.body.SpeechResult || "").toLowerCase()`. -/

/-- The language key resolution of the `lang` step, taking the raw
`Digits` and `SpeechResult` body fields. -/
def selectLangKey (digits : Option String) (speechRaw : Option String) : String :=
  let speech := jsToLower (jsOr speechRaw "")
  if digits = some "2" ∨ strContains speech "fran" = true then "2"
  else if digits = some "3" ∨ strContains speech "ivrit" = true ∨
      strContains speech "עברית" = true then "3"
  else "1"

/-! ### Transcription provider chain (voice_v2.js lines 438-458)

```js
let transcription = await transcribeWithHuggingFace(tempFile, "he");
if (!transcription) transcription = await transcribeWithGladia(tempFile, "he");
if (!transcription) transcription = await transcribeWithOpenAIWhisper(tempFile, "he");
...
return transcription || "";
```
The chain sees only the values the provider wrappers return after their
internal `catch` (`null` for Hugging Face and Gladia, `""` for the OpenAI
wrapper); all of these are falsy, so a provider that throws internally is
a failed provider for the chain. `chainRun` is this fallthrough over an
arbitrary ordered list of provider results, instrumented with the list of
provider indices invoked, in invocation order. -/

/-- The raw outcome of one provider body: a returned nullable string, or a
thrown exception. -/
inductive PRaw
  | ret (t : Option String)
  | thrown
deriving DecidableEq

/-- The provider-internal `catch` of `transcribeWithHuggingFace` and
`transcribeWithGladia`: errors become `null` (voice_v2.js lines 166-171,
320-325). -/
def catchToNull : PRaw → Option String
  | .ret t => t
  | .thrown => none

/-- The provider-internal `catch` of `transcribeWithOpenAIWhisper`:
errors become the empty string (voice_v2.js lines 364-369). -/
def catchToEmpty : PRaw → Option String
  | .ret t => t
  | .thrown => some ""

/-- A provider has failed for this utterance: it returned `null`, returned
the empty string, or threw. -/
def provFails (r : PRaw) : Prop :=
  r = .thrown ∨ r = .ret none ∨ r = .ret (some "")

/-- The chain fallthrough over an ordered list of (post-catch) provider
results: returns the indices invoked (in order) and the final string
result (`transcription || ""`). -/
def chainRun : List (Option String) → List Nat × String
  | [] => ([], "")
  | v :: vs =>
    if jsFalsy v then
      let r := chainRun vs
      (0 :: r.1.map Nat.succ, r.2)
    else ([0], v.getD "")

/-- The effects the handler model records. -/
inductive Effect
  | dlFetch (attempt : Nat)
  | provHF
  | provGladia
  | provWhisper
  | gptCall
  | calInsert
deriving DecidableEq

/-- The unrolled three-provider chain of the source, returning the result
string and the providers invoked. -/
def v2ChainTrace (t1 t2 t3 : Option String) : String × List Effect :=
  if ¬ jsFalsy t1 then (t1.getD "", [Effect.provHF])
  else if ¬ jsFalsy t2 then (t2.getD "", [Effect.provHF, Effect.provGladia])
  else (t3.getD "", [Effect.provHF, Effect.provGladia, Effect.provWhisper])

/-- Helper: the chain stops at the first non-falsy provider `k`, having
invoked exactly providers `0..k` in order. -/
theorem chainRun_firstSuccess :
    ∀ (outs : List (Option String)) (k : Nat) (T : String),
      k < outs.length →
      (∀ i, i < k → jsFalsy (outs.getD i none) = true) →
      outs.getD k none = some T → T ≠ "" →
      chainRun outs = (List.range (k + 1), T) := by
  intro outs
  induction outs with
  | nil => intro k T hk _ _ _; simp at hk
  | cons v vs ih =>
    intro k T hk hfail hT hne
    cases k with
    | zero =>
      have hv : v = some T := by simpa using hT
      subst hv
      have hf : jsFalsy (some T) = false := by
        simp [jsFalsy]
        exact hne
      simp only [chainRun, hf, Bool.false_eq_true, if_false, Option.getD_some]
      rw [show List.range (0 + 1) = [0] from rfl]
    | succ k' =>
      have h0 : jsFalsy v = true := by simpa using hfail 0 (Nat.succ_pos k')
      have hrec := ih k' T (by simpa using hk)
        (fun i hi => by simpa using hfail (i + 1) (Nat.succ_lt_succ hi))
        (by simpa using hT) hne
      simp only [chainRun, h0, if_pos, hrec]
      rw [← List.range_succ_eq_map]

/-- Helper: when every provider in the list fails, the chain invokes all
of them in order and returns the empty string. -/
theorem chainRun_allFail :
    ∀ outs : List (Option String),
      (∀ i, i < outs.length → jsFalsy (outs.getD i none) = true) →
      chainRun outs = (List.range outs.length, "") := by
  intro outs
  induction outs with
  | nil => intro _; rfl
  | cons v vs ih =>
    intro hfail
    have h0 : jsFalsy v = true := by simpa using hfail 0 (by simp)
    have hrec := ih (fun i hi => by
      simpa using hfail (i + 1) (by simpa using Nat.succ_lt_succ hi))
    simp only [chainRun, h0, if_pos, hrec, List.length_cons]
    rw [← List.range_succ_eq_map]

/-! ### Hugging Face provider: the 503 wait-then-retry recursion
(voice_v2.js lines 119-171, and `src/unnamed/part_002` lines 92-103)

```js
const response = await fetch(...);
if (!response.ok) {
  if (response.status === 503) {
    ...; await sleep(estimatedTime * 1000);
    return await transcribeWithHuggingFace(audioFile, language);
  }
  ...; throw new Error(...);           // caught below, returns null
}
const data = await response.json();
const transcription = data.text || ...;
if (transcription) { ...; return transcription; }
return null;
```
The recursive call on 503 carries no attempt counter: the provider keeps
retrying as long as the endpoint keeps answering 503. `hfRun` executes
this recursion against the finite stream of responses the endpoint will
produce, one response per attempt; exhausting the stream while the code
still wants another attempt witnesses that the recursion is still
running after that many attempts. -/

/-- One HTTP response of the Hugging Face inference endpoint, as the
provider discriminates it: 2xx with an extracted transcription field,
503 model-loading, or any other error status. -/
inductive HfResp
  | ok (t : Option String)
  | loading
  | err
deriving DecidableEq

/-- The outcome of running the provider against a finite response stream. -/
inductive HfResult
  | done (attempts : Nat) (res : Option String)
  | retrying (attempts : Nat)
deriving DecidableEq

/-- `transcribeWithHuggingFace` against a stream of responses, counting
attempts. `.retrying n` means the stream was exhausted after `n` attempts
with the recursion still going. -/
def hfRun : List HfResp → Nat → HfResult
  | [], n => .retrying n
  | .ok t :: _, n => .done (n + 1) (if jsFalsy t then none else t)
  | .loading :: rest, n => hfRun rest (n + 1)
  | .err :: _, n => .done (n + 1) none

/-- Helper: under a stream of nothing but 503 responses, the provider is
still retrying after consuming the whole stream. -/
theorem hfRun_loading_replicate :
    ∀ (n m : Nat), hfRun (List.replicate n HfResp.loading) m = .retrying (m + n) := by
  intro n
  induction n with
  | zero => intro m; rfl
  | succ k ih =>
    intro m
    show hfRun (HfResp.loading :: List.replicate k HfResp.loading) m = _
    rw [show hfRun (HfResp.loading :: List.replicate k HfResp.loading) m
        = hfRun (List.replicate k HfResp.loading) (m + 1) from rfl, ih]
    congr 1
    omega

/-! ### Recording download with bounded backoff (voice_v2.js lines 388-421)

```js
const delays = [300, 500, 1000, 2000];
let resp;
for (let attempt = 0; attempt < delays.length; attempt++) {
  resp = await fetch(url, ...);
  if (resp.ok) break;
  if (attempt < delays.length - 1) await sleep(delays[attempt]);
}
if (!resp || !resp.ok) throw new Error(...);   // caught → ""
```
-/

/-- The fixed retry delay schedule of the recording download. -/
def twDelays : List Nat := [300, 500, 1000, 2000]

/-- The download loop: `resps i` is whether the fetch of attempt `i`
succeeds (`resp.ok`); the list argument is the remaining delay schedule
(one entry per remaining attempt), `i` the current attempt index.
Returns (number of fetches made, delays slept, success). A delay is slept
only when the failed attempt is not the last one of the schedule
(`attempt < delays.length - 1`). -/
def dlGo (resps : Nat → Bool) : List Nat → Nat → Nat × List Nat × Bool
  | [], i => (i, [], false)
  | d :: ds, i =>
    if resps i then (i + 1, [], true)
    else if ds = [] then (i + 1, [], false)
    else
      let r := dlGo resps ds (i + 1)
      (r.1, d :: r.2.1, r.2.2)

/-- Unfolding step: a successful fetch stops the loop. -/
theorem dlGo_cons_ok (resps : Nat → Bool) (d : Nat) (ds : List Nat) (i : Nat)
    (h : resps i = true) : dlGo resps (d :: ds) i = (i + 1, [], true) := by
  simp only [dlGo, h, if_true]

/-- Unfolding step: a failed fetch that is not the last attempt sleeps
its delay and continues. -/
theorem dlGo_cons_fail (resps : Nat → Bool) (d : Nat) (ds : List Nat) (i : Nat)
    (h : resps i = false) (hne : ds ≠ []) :
    dlGo resps (d :: ds) i =
      ((dlGo resps ds (i + 1)).1, d :: (dlGo resps ds (i + 1)).2.1,
        (dlGo resps ds (i + 1)).2.2) := by
  simp only [dlGo, h, Bool.false_eq_true, if_false, if_neg hne]

/-- Unfolding step: a failed last attempt ends the loop without sleeping. -/
theorem dlGo_last_fail (resps : Nat → Bool) (d : Nat) (i : Nat)
    (h : resps i = false) : dlGo resps [d] i = (i + 1, [], false) := by
  simp [dlGo, h]

/-- Helper: if attempts `i..i+j-1` fail and attempt `i+j` succeeds within
the schedule, the loop stops right there, having slept the first `j`
delays of the remaining schedule. -/
theorem dlGo_firstSuccess (resps : Nat → Bool) :
    ∀ (ds : List Nat) (i j : Nat), j < ds.length →
      (∀ t, t < j → resps (i + t) = false) → resps (i + j) = true →
      dlGo resps ds i = (i + j + 1, ds.take j, true) := by
  intro ds
  induction ds with
  | nil => intro i j hj _ _; simp at hj
  | cons d ds' ih =>
    intro i j hj hfail hok
    cases j with
    | zero =>
      have h : resps i = true := by simpa using hok
      simp [dlGo_cons_ok resps d ds' i h]
    | succ t =>
      have h0 : resps i = false := by simpa using hfail 0 (Nat.succ_pos t)
      have hne : ds' ≠ [] := by
        intro h
        rw [h] at hj
        simp at hj
      have hrec := ih (i + 1) t (by simpa using hj)
        (fun u hu => by
          have := hfail (u + 1) (Nat.succ_lt_succ hu)
          rwa [show i + (u + 1) = i + 1 + u by omega] at this)
        (by rwa [show i + 1 + t = i + (t + 1) by omega])
      rw [dlGo_cons_fail resps d ds' i h0 hne, hrec]
      simp only [Prod.mk.injEq, List.take_succ_cons]
      exact ⟨by omega, by simp⟩

/-- Helper: if every attempt within the schedule fails, the loop makes
one fetch per schedule entry, sleeps every delay but the last, and
reports failure. -/
theorem dlGo_allFail (resps : Nat → Bool) :
    ∀ (ds : List Nat) (i : Nat), ds ≠ [] →
      (∀ t, t < ds.length → resps (i + t) = false) →
      dlGo resps ds i = (i + ds.length, ds.dropLast, false) := by
  intro ds
  induction ds with
  | nil => intro i h _; exact absurd rfl h
  | cons d ds' ih =>
    intro i _ hfail
    have h0 : resps i = false := by simpa using hfail 0 (by simp)
    cases ds' with
    | nil => simpa using dlGo_last_fail resps d i h0
    | cons e es =>
      have hrec := ih (i + 1) (by simp)
        (fun t ht => by
          have := hfail (t + 1) (by simpa using Nat.succ_lt_succ ht)
          rwa [show i + (t + 1) = i + 1 + t by omega] at this)
      rw [dlGo_cons_fail resps d (e :: es) i h0 (by simp), hrec]
      simp only [Prod.mk.injEq, List.length_cons]
      exact ⟨by omega, by simp⟩

/-! ### JavaScript dates and the year-correction postcondition
(voice_v2.js lines 663-668)

```js
const d = new Date(whenISO);
if (d.getFullYear() < currentYear) {
  d.setFullYear(currentYear);
  whenISO = d.toISOString();
}
```
`JDate` is a JS `Date` broken into calendar fields (UTC; the server clock
is taken as UTC, so local and UTC fields coincide). `setFullYear`
re-derives the instant from (newYear, oldMonth, oldDay, time-of-day) with
ECMAScript `MakeDay` normalization: a day number exceeding the month
length in the new year rolls into the following month
(Feb 29 → Mar 1 in a non-leap year). -/

/-- A JS `Date` value split into calendar fields (month `1..12`). -/
structure JDate where
  year : Nat
  month : Nat
  day : Nat
  hour : Nat
  minute : Nat
  second : Nat
deriving DecidableEq

/-- Gregorian leap year, as ECMAScript computes it. -/
def isLeap (y : Nat) : Bool :=
  (y % 4 == 0 && y % 100 != 0) || y % 400 == 0

/-- Number of days of month `m` in year `y`. -/
def daysInMonth (y m : Nat) : Nat :=
  if m = 2 then (if isLeap y then 29 else 28)
  else if m = 4 ∨ m = 6 ∨ m = 9 ∨ m = 11 then 30
  else 31

/-- The date denotes a real calendar instant. -/
def validDate (d : JDate) : Prop :=
  1 ≤ d.month ∧ d.month ≤ 12 ∧ 1 ≤ d.day ∧ d.day ≤ daysInMonth d.year d.month ∧
  d.hour < 24 ∧ d.minute < 60 ∧ d.second < 60

/-- JS `d.setFullYear(y)`: keep month, day and time-of-day, normalizing a
day that does not exist in the target year into the next month. -/
def setFullYearNorm (y : Nat) (d : JDate) : JDate :=
  if d.day ≤ daysInMonth y d.month then
    { d with year := y }
  else
    { d with year := y, month := d.month + 1, day := d.day - daysInMonth y d.month }

/-- The extractor's year-forcing postcondition: a timestamp whose year is
before the current year is moved to the current year via `setFullYear`. -/
def yearCorrect (cy : Nat) (d : JDate) : JDate :=
  if d.year < cy then setFullYearNorm cy d else d

/-! ### Extraction fallback (voice_v2.js lines 669-682)

```js
const parsed =
  lang === "1" || lang === "2" ?
  chrono.parseDate(utterance, new Date(), { forwardDate: true }) : null;
whenISO = parsed ? parsed.toISOString()
                 : new Date(Date.now() + 24 * 3600 * 1000).toISOString();
name = "Patient";
```
`chronoMs` abstracts the external `chrono.parseDate` call as a function
of its `forwardDate` flag, returning the parsed instant in epoch
milliseconds or `null`; the returned trace lists the flags of the
invocations actually made. -/

/-- The fallback extraction path: returns (chrono invocations made, the
resolved start instant in epoch milliseconds, the patient name). -/
def extractFallback (lang : String) (chronoMs : Bool → Option Int)
    (nowMs : Int) : List Bool × Int × String :=
  let call : List Bool × Option Int :=
    if lang = "1" ∨ lang = "2" then ([true], chronoMs true) else ([], none)
  (call.1, call.2.getD (nowMs + 24 * 3600 * 1000), "Patient")

/-! ### The webhook handler (voice_v2.js lines 489-755)

The handler is modelled as a pure function of the inbound request and a
`World` of external behaviours; it returns the HTTP-level response and
the ordered list of external effects performed. Exceptions of external
calls are explicit (`Option`/`Bool` outcomes): the GPT extraction models
both the chat call and the strict `JSON.parse` (`none` = threw), the
calendar outcome models `calendar.events.insert` (`false` = threw), and
an unparsable `date_iso` string is an Invalid Date (`dateIso = none`),
whose `getFullYear()` is NaN — `NaN < currentYear` is false, so it skips
year correction and later makes `toISOString()` throw inside
`createCalendarEvent`, which the calendar `catch` turns into the
scheduling apology before `events.insert` is reached. -/

/-- The voice-markup actions nested inside a `gather`. -/
inductive GAct
  | gsay (lang text : String)
  | gplay (url : String)
deriving DecidableEq

/-- Top-level voice-markup actions of a response document. -/
inductive Act
  | say (lang text : String)
  | play (url : String)
  | gather (subs : List GAct)
  | record
deriving DecidableEq

/-- The HTTP-level outcome of one webhook invocation: a 405, a voice-markup
document, or no response at all (the function returned without `res.send`). -/
inductive HResp
  | status405 (body : String)
  | xml (acts : List Act)
  | noSend
deriving DecidableEq

/-- The inbound webhook request fields the handler reads. -/
structure Req where
  method : String
  qStep : Option String
  qLang : Option String
  digits : Option String
  speech : Option String
  fromNum : Option String
  recordingUrl : Option String

/-- The strict-JSON extraction result `{date_iso, name}` after
`JSON.parse`: `dateIso` is `new Date(data.date_iso)` (`none` = Invalid
Date), `name` the raw `data.name` field. -/
structure GptJson where
  dateIso : Option JDate
  name : Option String

/-- External behaviours of one webhook invocation. -/
structure World where
  dlOk : Nat → Bool
  hf : Option String
  gladia : Option String
  whisper : Option String
  gpt : Option GptJson
  chrono : Bool → Option JDate
  nowPlus24 : JDate
  currentYear : Nat
  calendarOk : Bool
  locale : String → JDate → String

/-- `For service in English, press 1.` -/
def pressEnPrompt : String := "For service in English, press 1."

/-- The French digit prompt of the start step. -/
def pressFrPrompt : String := "Pour le service en français, appuyez sur 2."

/-- Pre-recorded Hebrew digit prompt. -/
def press3HeUrl : String := "https://dentist-ivr-poc.vercel.app/audio/press-3-he.mp3"

/-- Pre-recorded Hebrew welcome prompt. -/
def welcomeHeUrl : String := "https://dentist-ivr-poc.vercel.app/audio/welcome-he.mp3"

/-- Pre-recorded Hebrew confirmation audio. -/
def confirmHeUrl : String := "https://dentist-ivr-poc.vercel.app/audio/confirm-he.mp3"

/-- The English welcome prompt of the `lang` step. -/
def welcomeEnPrompt : String :=
  "Welcome to Doctor B\x27s clinic. Please say your name and the date and time you\x27d like for your appointment."

/-- The French welcome prompt of the `lang` step. -/
def welcomeFrPrompt : String :=
  "Bienvenue au cabinet du docteur B. Veuillez indiquer votre nom ainsi que la date et l\x27heure souhaitées pour votre rendez-vous."

/-- Acquisition-failure apology (voice_v2.js lines 607-615). -/
def noUnderstandMsg : String :=
  "Sorry, I could not understand your message. Please try again later."

/-- Commit-failure apology (voice_v2.js lines 725-731). -/
def schedFailMsg : String :=
  "Sorry, there was an issue scheduling your appointment."

/-- Fatal-error apology of the outer catch (voice_v2.js lines 743-754). -/
def fatalMsg : String := "Sorry, something went wrong on our end."

/-- The `langs` table of voice_v2.js line 537 (`undefined` for any other
key, rendered as the string "undefined" by the markup library). -/
def langsV2 (k : String) : String :=
  if k = "1" then "en-US" else if k = "2" then "fr-FR" else "undefined"

/-- The `prompts` table of the `lang` step. -/
def promptsV2 (k : String) : String :=
  if k = "1" then welcomeEnPrompt else if k = "2" then welcomeFrPrompt
  else "undefined"

/-- The start-step response: one gather offering the three languages. -/
def startGather : Act :=
  .gather [.gsay "en-US" pressEnPrompt, .gsay "fr-FR" pressFrPrompt,
    .gplay press3HeUrl]

/-- The `lang`-step response: Hebrew gets play-then-record, English and
French get a speech gather with the localized prompt. -/
def langStepActs (digits : Option String) (speechRaw : Option String) : List Act :=
  let key := selectLangKey digits speechRaw
  if key = "3" then [.play welcomeHeUrl, .record]
  else [.gather [.gsay (langsV2 key) (promptsV2 key)]]

/-- `transcribeAudioFromTwilio` of voice_v2.js lines 375-486: the bounded
download loop followed by the three-provider chain; a download failure
throws and the outer catch returns the empty string. -/
def transcribeModel (w : World) : String × List Effect :=
  let dl := dlGo w.dlOk twDelays 0
  let dlEffs := (List.range dl.1).map Effect.dlFetch
  if dl.2.2 then
    let c := v2ChainTrace w.hf w.gladia w.whisper
    (c.1, dlEffs ++ c.2)
  else ("", dlEffs)

/-- Utterance acquisition of the collect step (voice_v2.js lines 580-605):
for Hebrew with a recording URL, record-then-transcribe; otherwise the
platform speech result. -/
def acquireUtterance (w : World) (req : Req) : String × List Effect :=
  if jsOr req.qLang "1" = "3" ∧ truthyOpt req.recordingUrl = true then
    transcribeModel w
  else (jsOr req.speech "", [])

/-- The booking commit and confirmation rendering (voice_v2.js lines
684-731): an Invalid Date throws inside `createCalendarEvent` before the
insert call; otherwise the insert is attempted and its outcome selects
the localized confirmation or the scheduling apology. -/
def calendarStep (w : World) (lang name : String) (whenD : Option JDate)
    (effs : List Effect) : HResp × List Effect :=
  match whenD with
  | none => (.xml [.say "en-US" schedFailMsg], effs)
  | some d =>
    if w.calendarOk then
      if lang = "3" then
        (.xml [.play confirmHeUrl,
          .say "en-US"
            ("Appointment confirmed. Date and time " ++ w.locale "en-US" d ++ ".")],
          effs ++ [Effect.calInsert])
      else if lang = "1" then
        (.xml [.say (langsV2 lang)
          ("Thank you " ++ name ++ ". Your appointment has been scheduled for "
            ++ w.locale "en-US" d ++ ". Goodbye!")], effs ++ [Effect.calInsert])
      else if lang = "2" then
        (.xml [.say (langsV2 lang)
          ("Merci " ++ name ++ ". Votre rendez-vous a bien été enregistré pour le "
            ++ w.locale "fr-FR" d ++ ". À bientôt !")], effs ++ [Effect.calInsert])
      else (.xml [.say (langsV2 lang) "undefined"], effs ++ [Effect.calInsert])
    else (.xml [.say "en-US" schedFailMsg], effs ++ [Effect.calInsert])

/-- The collect step (voice_v2.js lines 579-742): acquire the utterance;
if empty, apologize in `en-US`; otherwise run the GPT extraction with its
year-correction postcondition, or on extraction failure the chrono
fallback, then commit. -/
def collectGo (w : World) (req : Req) : HResp × List Effect :=
  let acq := acquireUtterance w req
  if acq.1 = "" then (.xml [.say "en-US" noUnderstandMsg], acq.2)
  else
    let lang := jsOr req.qLang "1"
    match w.gpt with
    | some j =>
      calendarStep w lang (jsOr j.name "Patient")
        (Option.map (yearCorrect w.currentYear) j.dateIso)
        (acq.2 ++ [Effect.gptCall])
    | none =>
      calendarStep w lang "Patient"
        (some ((if lang = "1" ∨ lang = "2" then w.chrono true else none).getD
          w.nowPlus24))
        (acq.2 ++ [Effect.gptCall])

/-- The webhook handler (voice_v2.js lines 489-755): 405 on non-POST,
then dispatch on `req.query.step || "start"`; an unrecognized non-empty
step value matches no branch and the function returns without sending a
response. -/
def handler (w : World) (req : Req) : HResp × List Effect :=
  if req.method = "POST" then
    if jsOr req.qStep "start" = "start" then (.xml [startGather], [])
    else if jsOr req.qStep "start" = "lang" then
      (.xml (langStepActs req.digits req.speech), [])
    else if jsOr req.qStep "start" = "collect" then collectGo w req
    else (.noSend, [])
  else (.status405 "Method Not Allowed", [])

/-- Helper: the commit step always renders a voice-markup document. -/
theorem calendarStep_isXml (w : World) (lang name : String)
    (whenD : Option JDate) (effs : List Effect) :
    ∃ a e, calendarStep w lang name whenD effs = (HResp.xml a, e) := by
  unfold calendarStep
  cases whenD with
  | none => exact ⟨_, _, rfl⟩
  | some d =>
    by_cases hc : w.calendarOk
    · simp only [hc, if_true]
      by_cases h3 : lang = "3"
      · simp only [h3, if_pos rfl]; exact ⟨_, _, rfl⟩
      · simp only [if_neg h3]
        by_cases h1 : lang = "1"
        · simp only [h1, if_pos rfl]; exact ⟨_, _, rfl⟩
        · simp only [if_neg h1]
          by_cases h2 : lang = "2"
          · simp only [h2, if_pos rfl]; exact ⟨_, _, rfl⟩
          · simp only [if_neg h2]; exact ⟨_, _, rfl⟩
    · simp only [hc, if_false]
      exact ⟨_, _, rfl⟩

/-- Helper: the collect step always renders a voice-markup document. -/
theorem collectGo_isXml (w : World) (req : Req) :
    ∃ a e, collectGo w req = (HResp.xml a, e) := by
  unfold collectGo
  by_cases hu : (acquireUtterance w req).1 = ""
  · simp only [hu, if_pos rfl]
    exact ⟨_, _, rfl⟩
  · simp only [if_neg hu]
    cases w.gpt with
    | some j => exact calendarStep_isXml w _ _ _ _
    | none => exact calendarStep_isXml w _ _ _ _

/-- Helper: acquisition only performs download and provider effects. -/
theorem acquire_effects (w : World) (req : Req) :
    Effect.gptCall ∉ (acquireUtterance w req).2 ∧
    Effect.calInsert ∉ (acquireUtterance w req).2 := by
  unfold acquireUtterance
  by_cases h : jsOr req.qLang "1" = "3" ∧ truthyOpt req.recordingUrl = true
  · simp only [h, if_pos]
    unfold transcribeModel
    by_cases hdl : (dlGo w.dlOk twDelays 0).2.2
    · simp only [hdl, if_true, if_pos]
      constructor <;>
      · intro hmem
        rcases List.mem_append.mp hmem with hmem | hmem
        · rcases List.mem_map.mp hmem with ⟨x, _, hx⟩
          exact absurd hx (by intro hc; cases hc)
        · unfold v2ChainTrace at hmem
          by_cases h1 : jsFalsy w.hf
          · by_cases h2 : jsFalsy w.gladia
            · simp only [h1, h2, not_true, if_false] at hmem
              simp at hmem
            · simp only [h1, h2, not_true, not_false_iff, if_false, if_true] at hmem
              simp at hmem
          · simp only [h1, not_false_iff, if_true] at hmem
            simp at hmem
    · simp only [hdl, Bool.false_eq_true, if_false]
      constructor <;>
      · intro hmem
        rcases List.mem_map.mp hmem with ⟨x, _, hx⟩
        exact absurd hx (by intro hc; cases hc)
  · simp only [if_neg h]
    constructor <;> simp

/-! ### Fixed test fixtures used by closed theorems -/

/-- A concrete external world: every download attempt fails, every
provider fails, GPT extraction throws, chrono finds nothing, the calendar
insert throws. -/
def w0 : World where
  dlOk := fun _ => false
  hf := none
  gladia := none
  whisper := none
  gpt := none
  chrono := fun _ => none
  nowPlus24 := ⟨2026, 10, 12, 12, 0, 0⟩
  currentYear := 2026
  calendarOk := false
  locale := fun _ _ => ""

/-- A world whose third download attempt (index 2) succeeds. -/
def w1 : World := { w0 with dlOk := fun i => i == 2 }

/-- A POST request with an unrecognized step value. -/
def reqBogusStep : Req where
  method := "POST"
  qStep := some "stat"
  qLang := none
  digits := none
  speech := none
  fromNum := none
  recordingUrl := none

/-- A POST request with no step parameter at all. -/
def reqNoStep : Req where
  method := "POST"
  qStep := none
  qLang := none
  digits := none
  speech := none
  fromNum := none
  recordingUrl := none

/-- A French-language collect request whose platform speech result is
empty (silence). -/
def reqFrSilent : Req where
  method := "POST"
  qStep := some "collect"
  qLang := some "2"
  digits := none
  speech := some ""
  fromNum := some "+33123456789"
  recordingUrl := none

/-- A GET request. -/
def reqGet : Req where
  method := "GET"
  qStep := none
  qLang := none
  digits := none
  speech := none
  fromNum := none
  recordingUrl := none

/-! ### Claim C1 -/

/-- Claim C1 counterexample: the claim says a request whose DTMF digit is
"3" selects Hebrew regardless of the recognized speech; but with digit
"3" and speech containing "fran" the code's first condition
(`digits === "2" || speech.includes("fran")`) fires and selects French
("2"), not Hebrew ("3"). -/
theorem c1_counterexample :
    selectLangKey (some "3") (some "Francais") = "2" ∧ ("2" : String) ≠ "3" :=
  ⟨rfl, by decide⟩

/-- Claim C1 (amended): the `lang` step resolves the language by testing
the French condition first (digit "2" or speech containing "fran"), then
the Hebrew condition (digit "3" or speech containing "ivrit"/"עברית"),
and defaults to English; in particular digit "3" selects Hebrew only when
the French condition does not hold, and when digit and speech match
nothing English is selected. -/
theorem c1_langSelect (digits speechRaw : Option String) :
    (digits = some "2" ∨ strContains (jsToLower (jsOr speechRaw "")) "fran" = true →
      selectLangKey digits speechRaw = "2") ∧
    (¬(digits = some "2" ∨ strContains (jsToLower (jsOr speechRaw "")) "fran" = true) →
      digits = some "3" ∨ strContains (jsToLower (jsOr speechRaw "")) "ivrit" = true ∨
        strContains (jsToLower (jsOr speechRaw "")) "עברית" = true →
      selectLangKey digits speechRaw = "3") ∧
    (¬(digits = some "2" ∨ strContains (jsToLower (jsOr speechRaw "")) "fran" = true) →
      ¬(digits = some "3" ∨ strContains (jsToLower (jsOr speechRaw "")) "ivrit" = true ∨
        strContains (jsToLower (jsOr speechRaw "")) "עברית" = true) →
      selectLangKey digits speechRaw = "1") := by
  unfold selectLangKey
  refine ⟨fun h => ?_, fun hn h => ?_, fun hn hn2 => ?_⟩
  · simp only [if_pos h]
  · simp only [if_neg hn, if_pos h]
  · simp only [if_neg hn, if_neg hn2]

/-- Witness for C1: digit "3" with speech matching no French keyword
selects Hebrew. -/
theorem c1_langSelect_witness : selectLangKey (some "3") (some "") = "3" :=
  (c1_langSelect (some "3") (some "")).2.1 (by decide) (Or.inl rfl)

/-! ### Claim C2 -/

/-- Claim C2 counterexample: a POST request whose step parameter is
garbled (`step=stat`) matches no branch of the handler; the function
returns without sending any voice-markup response, contradicting the
claim that every inbound POST renders some response. -/
theorem c2_counterexample :
    reqBogusStep.method = "POST" ∧
    handler w0 reqBogusStep = (HResp.noSend, []) :=
  ⟨rfl, rfl⟩

/-- Claim C2 (amended): a POST whose step parameter is missing (or empty)
gets Start semantics, and every recognized step renders a voice-markup
response; but a garbled non-empty step value falls through all branches
and no response at all is rendered. -/
theorem c2_step_dispatch (w : World) (req : Req) (hm : req.method = "POST") :
    (req.qStep = none → handler w req = (HResp.xml [startGather], [])) ∧
    (jsOr req.qStep "start" = "start" ∨ jsOr req.qStep "start" = "lang" ∨
        jsOr req.qStep "start" = "collect" →
      ∃ a e, handler w req = (HResp.xml a, e)) ∧
    (jsOr req.qStep "start" ≠ "start" → jsOr req.qStep "start" ≠ "lang" →
      jsOr req.qStep "start" ≠ "collect" → handler w req = (HResp.noSend, [])) := by
  refine ⟨fun hnone => ?_, fun hsteps => ?_, fun h1 h2 h3 => ?_⟩
  · unfold handler
    rw [if_pos hm, hnone]
    rfl
  · unfold handler
    rw [if_pos hm]
    rcases hsteps with h | h | h
    · rw [if_pos h]
      exact ⟨_, _, rfl⟩
    · rw [if_neg (by rw [h]; decide), if_pos h]
      exact ⟨_, _, rfl⟩
    · rw [if_neg (by rw [h]; decide), if_neg (by rw [h]; decide), if_pos h]
      exact collectGo_isXml w req
  · unfold handler
    rw [if_pos hm, if_neg h1, if_neg h2, if_neg h3]

/-- Witness for C2: a POST with no step parameter gets the Start
response. -/
theorem c2_step_dispatch_witness :
    handler w0 reqNoStep = (HResp.xml [startGather], []) :=
  (c2_step_dispatch w0 reqNoStep rfl).1 rfl

/-! ### Claim C3 -/

/-- Claim C3: if providers `0..k-1` each fail (null/empty/throw, i.e.
falsy post-catch value) and provider `k` returns non-empty text `T`, the
chain invokes exactly providers `0..k` in that order, returns exactly
`T`, never invokes provider `k+1`, and invokes no provider twice. -/
theorem c3_chain_order (outs : List (Option String)) (k : Nat) (T : String)
    (hk : k < outs.length)
    (hfail : ∀ i, i < k → jsFalsy (outs.getD i none) = true)
    (hT : outs.getD k none = some T) (hne : T ≠ "") :
    chainRun outs = (List.range (k + 1), T) ∧
    (k + 1) ∉ (chainRun outs).1 ∧ (chainRun outs).1.Nodup := by
  have h := chainRun_firstSuccess outs k T hk hfail hT hne
  refine ⟨h, ?_, ?_⟩
  · rw [h]
    simp
  · rw [h]
    exact List.nodup_range _

/-- Witness for C3: two failing providers followed by a successful third. -/
theorem c3_chain_order_witness :
    chainRun [none, some "", some "shalom"] = (List.range 3, "shalom") ∧
    3 ∉ (chainRun [none, some "", some "shalom"]).1 ∧
    (chainRun [none, some "", some "shalom"]).1.Nodup :=
  c3_chain_order [none, some "", some "shalom"] 2 "shalom" (by decide)
    (by decide) (by decide) (by decide)

/-! ### Claim C4 -/

/-- Claim C4: when every provider fails (returns null, returns the empty
string, or throws — each provider catches its own exceptions, Hugging
Face and Gladia returning null and the OpenAI wrapper the empty string,
so no exception crosses the chain boundary), the chain invokes all three
providers and its result is the empty string. -/
theorem c4_all_providers_fail (r1 r2 r3 : PRaw)
    (h1 : provFails r1) (h2 : provFails r2) (h3 : provFails r3) :
    (v2ChainTrace (catchToNull r1) (catchToNull r2) (catchToEmpty r3)).1 = "" ∧
    (v2ChainTrace (catchToNull r1) (catchToNull r2) (catchToEmpty r3)).2
      = [Effect.provHF, Effect.provGladia, Effect.provWhisper] := by
  rcases h1 with rfl | rfl | rfl <;> rcases h2 with rfl | rfl | rfl <;>
    rcases h3 with rfl | rfl | rfl <;> exact ⟨rfl, rfl⟩

/-- Witness for C4: one thrown, one null, one empty provider. -/
theorem c4_all_providers_fail_witness :
    (v2ChainTrace (catchToNull PRaw.thrown) (catchToNull (PRaw.ret none))
        (catchToEmpty (PRaw.ret (some "")))).1 = "" ∧
    (v2ChainTrace (catchToNull PRaw.thrown) (catchToNull (PRaw.ret none))
        (catchToEmpty (PRaw.ret (some "")))).2
      = [Effect.provHF, Effect.provGladia, Effect.provWhisper] :=
  c4_all_providers_fail .thrown (.ret none) (.ret (some ""))
    (Or.inl rfl) (Or.inr (Or.inl rfl)) (Or.inr (Or.inr rfl))

/-! ### Claim C5 -/

/-- Claim C5 is false of the code: the Hugging Face provider retries on
HTTP 503 by an unconditional recursive call with no attempt counter.
Under a stream of nothing but 503 responses the provider is still
retrying after any number of attempts — it never considers itself failed
within a bounded number of attempts — and two consecutive 503 responses
followed by a success yield three attempts, not the single bounded
wait-then-retry the claim describes. -/
theorem c5_unbounded_503_retry :
    (∀ n, hfRun (List.replicate n HfResp.loading) 0 = HfResult.retrying n) ∧
    hfRun [HfResp.loading, HfResp.loading, HfResp.ok (some "T")] 0
      = HfResult.done 3 (some "T") := by
  constructor
  · intro n
    simpa using hfRun_loading_replicate n 0
  · rfl

/-! ### Claim C6 -/

/-- Claim C6: the recording download retries over the fixed delay
schedule [300, 500, 1000, 2000]: if the first `j` fetches fail and fetch
`j` succeeds within the four attempts, the loop makes exactly `j + 1`
fetches, sleeping the first `j` delays, and stops; if all four fail, it
makes exactly four fetches, sleeps [300, 500, 1000], and the resulting
utterance of the transcription process is empty. -/
theorem c6_download_retry (w : World) :
    (∀ j, j < 4 → (∀ i, i < j → w.dlOk i = false) → w.dlOk j = true →
      dlGo w.dlOk twDelays 0 = (j + 1, twDelays.take j, true)) ∧
    ((∀ i, i < 4 → w.dlOk i = false) →
      dlGo w.dlOk twDelays 0 = (4, [300, 500, 1000], false) ∧
      (transcribeModel w).1 = "") := by
  constructor
  · intro j hj hfail hok
    have h := dlGo_firstSuccess w.dlOk twDelays 0 j
      (by simpa [twDelays] using hj)
      (fun t ht => by simpa using hfail t ht)
      (by simpa using hok)
    simpa using h
  · intro hfail
    have hd := dlGo_allFail w.dlOk twDelays 0 (by simp [twDelays])
      (fun t ht => by simpa using hfail t (by simpa [twDelays] using ht))
    have hd4 : dlGo w.dlOk twDelays 0 = (4, [300, 500, 1000], false) := by
      simpa [twDelays] using hd
    refine ⟨hd4, ?_⟩
    unfold transcribeModel
    rw [hd4]
    rfl

/-- Witness for C6: two failed fetches followed by a success on attempt 2
stop the loop after three fetches. -/
theorem c6_download_retry_witness :
    dlGo w1.dlOk twDelays 0 = (3, twDelays.take 2, true) :=
  (c6_download_retry w1).1 2 (by decide) (by decide) (by decide)

/-! ### Claim C7 -/

/-- Claim C7 counterexample: a valid extraction result on Feb 29 of the
past leap year 2024 is forced to the non-leap current year 2025, where
`setFullYear` normalizes the nonexistent Feb 29 to Mar 1 — the month (and
day) are not preserved, contradicting the claim. -/
theorem c7_counterexample :
    validDate ⟨2024, 2, 29, 10, 30, 0⟩ ∧ 2024 < 2025 ∧
    yearCorrect 2025 ⟨2024, 2, 29, 10, 30, 0⟩ = ⟨2025, 3, 1, 10, 30, 0⟩ ∧
    (yearCorrect 2025 ⟨2024, 2, 29, 10, 30, 0⟩).month ≠ 2 := by
  refine ⟨?_, by decide, by decide, by decide⟩
  unfold validDate
  decide

/-- Claim C7 (amended): a result whose year is the current year or later
is left unchanged; a result with a past year is forced to the current
year with time-of-day always preserved, and month and day preserved
exactly when that month-day exists in the current year — otherwise (Feb
29 into a non-leap year) the day overflows into the next month. -/
theorem c7_year_correction (cy : Nat) (d : JDate) (_hv : validDate d) :
    (cy ≤ d.year → yearCorrect cy d = d) ∧
    (d.year < cy →
      (yearCorrect cy d).year = cy ∧
      (yearCorrect cy d).hour = d.hour ∧
      (yearCorrect cy d).minute = d.minute ∧
      (yearCorrect cy d).second = d.second ∧
      (d.day ≤ daysInMonth cy d.month →
        (yearCorrect cy d).month = d.month ∧ (yearCorrect cy d).day = d.day) ∧
      (daysInMonth cy d.month < d.day →
        (yearCorrect cy d).month = d.month + 1 ∧
        (yearCorrect cy d).day = d.day - daysInMonth cy d.month)) := by
  constructor
  · intro h
    unfold yearCorrect
    rw [if_neg (by omega)]
  · intro h
    unfold yearCorrect setFullYearNorm
    rw [if_pos h]
    by_cases hd : d.day ≤ daysInMonth cy d.month
    · rw [if_pos hd]
      exact ⟨rfl, rfl, rfl, rfl, fun _ => ⟨rfl, rfl⟩, fun hlt => absurd hd (by omega)⟩
    · rw [if_neg hd]
      exact ⟨rfl, rfl, rfl, rfl, fun hle => absurd hle hd, fun _ => ⟨rfl, rfl⟩⟩

/-- Witness for C7: New Year's Eve 2025 moved into 2026 keeps its month
and day. -/
theorem c7_year_correction_witness :
    (yearCorrect 2026 ⟨2025, 12, 31, 23, 0, 0⟩).month = 12 ∧
    (yearCorrect 2026 ⟨2025, 12, 31, 23, 0, 0⟩).day = 31 :=
  ((c7_year_correction 2026 ⟨2025, 12, 31, 23, 0, 0⟩
      (by unfold validDate; decide)).2 (by decide)).2.2.2.2.1 (by decide)

/-! ### Claim C8 -/

/-- Claim C8: in the extraction fallback path, Hebrew (lang "3") never
invokes the chrono parser and always defaults to now + 24 hours, while
English and French invoke it exactly once with the forwardDate
(prefer-future) flag and default to now + 24 hours only when it finds no
date; the fallback name is always "Patient". -/
theorem c8_fallback_parsing (chronoMs : Bool → Option Int) (nowMs : Int) :
    extractFallback "3" chronoMs nowMs
      = ([], nowMs + 24 * 3600 * 1000, "Patient") ∧
    (∀ lang, lang = "1" ∨ lang = "2" →
      extractFallback lang chronoMs nowMs
        = ([true], (chronoMs true).getD (nowMs + 24 * 3600 * 1000), "Patient")) := by
  constructor
  · rfl
  · intro lang h
    rcases h with rfl | rfl <;> rfl

/-- Witness for C8: English fallback invokes chrono once with the
forward-date flag and uses its parse result. -/
theorem c8_fallback_parsing_witness :
    extractFallback "1" (fun _ => some 999) 0 = ([true], 999, "Patient") :=
  (c8_fallback_parsing (fun _ => some 999) 0).2 "1" (Or.inl rfl)

/-! ### Claim C9 -/

/-- Claim C9 counterexample: a French (lang "2") collect request with an
empty utterance gets the "could not understand" apology spoken in
`en-US`, not in the request's active language `fr-FR`, contradicting the
claim that the apology is spoken in the active language. -/
theorem c9_counterexample :
    handler w0 reqFrSilent = (HResp.xml [Act.say "en-US" noUnderstandMsg], []) ∧
    langsV2 (jsOr reqFrSilent.qLang "1") = "fr-FR" ∧
    ("en-US" : String) ≠ "fr-FR" :=
  ⟨rfl, rfl, by decide⟩

/-- Claim C9 (amended): a collect request whose acquired utterance is
empty renders the "could not understand" apology — always in `en-US`,
whatever the active language — with no intent-extraction call and no
calendar insert; and the commit-failure apology is distinct in text from
this acquisition-failure apology. -/
theorem c9_empty_utterance (w : World) (req : Req)
    (hm : req.method = "POST") (hs : jsOr req.qStep "start" = "collect")
    (hu : (acquireUtterance w req).1 = "") :
    handler w req
      = (HResp.xml [Act.say "en-US" noUnderstandMsg], (acquireUtterance w req).2) ∧
    Effect.gptCall ∉ (handler w req).2 ∧
    Effect.calInsert ∉ (handler w req).2 ∧
    noUnderstandMsg ≠ schedFailMsg := by
  have hc : collectGo w req
      = (HResp.xml [Act.say "en-US" noUnderstandMsg], (acquireUtterance w req).2) := by
    unfold collectGo
    simp only [hu, if_true]
  have hh : handler w req = collectGo w req := by
    unfold handler
    rw [if_pos hm, hs]
    rw [if_neg (by decide), if_neg (by decide), if_pos rfl]
  rw [hh, hc]
  exact ⟨rfl, (acquire_effects w req).1, (acquire_effects w req).2, by decide⟩

/-- Witness for C9: the silent French request. -/
theorem c9_empty_utterance_witness :
    handler w0 reqFrSilent
      = (HResp.xml [Act.say "en-US" noUnderstandMsg],
          (acquireUtterance w0 reqFrSilent).2) ∧
    Effect.gptCall ∉ (handler w0 reqFrSilent).2 ∧
    Effect.calInsert ∉ (handler w0 reqFrSilent).2 ∧
    noUnderstandMsg ≠ schedFailMsg :=
  c9_empty_utterance w0 reqFrSilent rfl rfl rfl

/-! ### Claim C10 -/

/-- Claim C10: a request whose method is not POST gets status 405
"Method Not Allowed" and the handler performs no external effect at all —
no recording download, no transcription provider call, no
intent-extraction call, no calendar insert. -/
theorem c10_non_post (w : World) (req : Req) (hm : req.method ≠ "POST") :
    handler w req = (HResp.status405 "Method Not Allowed", []) := by
  unfold handler
  rw [if_neg hm]

/-- Witness for C10: a GET request. -/
theorem c10_non_post_witness :
    handler w0 reqGet = (HResp.status405 "Method Not Allowed", []) :=
  c10_non_post w0 reqGet (by decide)

end Voice
